import Mathlib

/-!
# gatsby-node.js: page creation and node decoration

A shallow embedding of the two build hooks exported by `gatsby-node.js`:

* `createPages`, which reads the resolved content query and issues one
  `createPage` action per post, with previous/next navigation context;
* `onCreateNode`, which attaches the `slug` and `editLink` fields to `Mdx` nodes.

Actions (`createPage`, `createNodeField`) are modelled as a log of the argument
objects they were called with, in call order. Values supplied by the
environment (`path.resolve`, `createFilePath`, `__dirname`) are parameters.
-/

set_option autoImplicit false

namespace GatsbyNode

/-! ## JavaScript values used by the hooks -/

/-- A JavaScript number, as far as the hooks need it: an integer or `NaN`. -/
inductive JsNumber where
  | nan
  | int (n : Int)
  deriving DecidableEq, Repr

/-- A primitive obtained by reading a property that is not an object. -/
inductive JsPrim where
  | undefined
  | null
  | num (x : JsNumber)
  deriving DecidableEq, Repr

/-- ECMAScript `ToNumber` on the primitives above. -/
def JsPrim.toNumber : JsPrim → JsNumber
  | .undefined => .nan
  | .null => .int 0
  | .num x => x

/-- The binary `-` operator: both operands go through `ToNumber`; `NaN` is absorbing. -/
def jsMinus (a b : JsPrim) : JsNumber :=
  match a.toNumber, b.toNumber with
  | .int x, .int y => .int (x - y)
  | _, _ => .nan

/-- The `===` operator on two numbers: `NaN` is equal to nothing, itself included. -/
def jsStrictEq (a b : JsNumber) : Bool :=
  match a, b with
  | .int x, .int y => x == y
  | _, _ => false

/-- A slot that holds an object, `null` or `undefined`. -/
inductive JsRef (α : Type) where
  | null
  | undefined
  | obj (v : α)
  deriving DecidableEq, Repr

/-- Both `null` and `undefined` count as "absent". -/
def JsRef.isAbsent {α : Type} : JsRef α → Bool
  | .null => true
  | .undefined => true
  | .obj _ => false

/-- Reads `null` and `undefined` alike as `none`. -/
def JsRef.toOption {α : Type} : JsRef α → Option α
  | .null => none
  | .undefined => none
  | .obj v => some v

/-- Array indexing `xs[i]`: an index past the end reads as `undefined`. -/
def jsIndex {α : Type} (xs : List α) (i : Nat) : JsRef α :=
  match xs[i]? with
  | some v => .obj v
  | none => .undefined

/-- The loop of `Array.prototype.forEach`, from a given start index: the callback sees each
element and its index, in order, and threads the state of the outside world. -/
def forEachFrom {α σ : Type} (cb : α → Nat → σ → σ) : List α → Nat → σ → σ
  | [], _, s => s
  | x :: xs, i, s => forEachFrom cb xs (i + 1) (cb x i s)

/-- The method `Array.prototype.forEach`: the loop started at index 0. -/
def forEach {α σ : Type} (xs : List α) (cb : α → Nat → σ → σ) (s : σ) : σ :=
  forEachFrom cb xs 0 s

/-! ## The content query result -/

/-- The `frontmatter` selection of the query. -/
structure Frontmatter where
  title : String
  date : String
  category : String
  author : String
  deriving DecidableEq, Repr

/-- The `fields` selection of the query. -/
structure Fields where
  slug : String
  deriving DecidableEq, Repr

/-- One element of `allMdx.nodes`: exactly the fields the query selects
(`id`, `excerpt`, `frontmatter`, `fields`). -/
structure Post where
  id : String
  excerpt : String
  frontmatter : Frontmatter
  fields : Fields
  deriving DecidableEq, Repr

/-- The read `post.length`. The query selects no `length`, so the object has
no such property and the read gives `undefined`. -/
def Post.length (_post : Post) : JsPrim := .undefined

/-- The `allMdx` connection. -/
structure AllMdx where
  nodes : List Post
  deriving DecidableEq, Repr

/-- The `data` member of the result. -/
structure Data where
  allMdx : AllMdx
  deriving DecidableEq, Repr

/-- The `errors` member of the result: missing, `null`, or an array of errors
(each kept as its message). -/
inductive JsErrors where
  | undefined
  | null
  | array (es : List String)
  deriving DecidableEq, Repr

/-- JavaScript truthiness of the `errors` member: every array is an object and
hence truthy, the empty one included. -/
def JsErrors.truthy : JsErrors → Bool
  | .undefined => false
  | .null => false
  | .array _ => true

/-- The value the `graphql` promise resolves with. `data` may be missing. -/
structure QueryResult where
  errors : JsErrors
  data : Option Data
  deriving DecidableEq, Repr

/-! ## `createPages` -/

/-- The `context` object handed to the template. -/
structure PageContext where
  slug : String
  previous : JsRef Post
  next : JsRef Post
  deriving DecidableEq, Repr

/-- The argument object of one `createPage` call. -/
structure CreatePageArgs where
  path : String
  component : String
  context : PageContext
  deriving DecidableEq, Repr

/-- What the `.then` callback can throw. -/
inductive Thrown where
  | value (errors : JsErrors)
  | typeError
  deriving DecidableEq, Repr

/-- How a hook run ends. -/
inductive Outcome where
  | completed
  | threw (t : Thrown)
  deriving DecidableEq, Repr

/-- One run of `createPages`: the `createPage` calls issued, in order, and how
the run ended. -/
structure Run where
  calls : List CreatePageArgs
  outcome : Outcome
  deriving DecidableEq, Repr

/-- The action `createPage`: records its argument. -/
def createPage (args : CreatePageArgs) (log : List CreatePageArgs) : List CreatePageArgs :=
  log ++ [args]

/-- The body of the `posts.forEach((post, index) => ...)` callback. -/
def postCallback (postLayoutTemplate : String) (posts : List Post)
    (post : Post) (index : Nat) (log : List CreatePageArgs) : List CreatePageArgs :=
  let previous : JsRef Post :=
    if jsStrictEq (.int index) (jsMinus post.length (.num (.int 1))) then .null
    else jsIndex posts (index + 1)
  let next : JsRef Post :=
    if jsStrictEq (.int index) (.int 0) then .null else jsIndex posts (index - 1)
  createPage
    { path := post.fields.slug
      component := postLayoutTemplate
      context := { slug := post.fields.slug, previous := previous, next := next } }
    log

/-- The hook `createPages`, run on the resolved query result. `resolve` stands
for `path.resolve`. -/
def createPages (resolve : String → String) (result : QueryResult) : Run :=
  let postLayoutTemplate := resolve "src/templates/post-layout.js"
  if result.errors.truthy then
    { calls := [], outcome := .threw (.value result.errors) }
  else
    match result.data with
    | none => { calls := [], outcome := .threw .typeError }
    | some data =>
      let posts := data.allMdx.nodes
      { calls := forEach posts (postCallback postLayoutTemplate posts) []
        outcome := .completed }

/-- The same callback with the boundary test written against the collection:
`index === posts.length - 1`. -/
def postCallbackFixed (postLayoutTemplate : String) (posts : List Post)
    (post : Post) (index : Nat) (log : List CreatePageArgs) : List CreatePageArgs :=
  let previous : JsRef Post :=
    if jsStrictEq (.int index) (jsMinus (.num (.int posts.length)) (.num (.int 1))) then .null
    else jsIndex posts (index + 1)
  let next : JsRef Post :=
    if jsStrictEq (.int index) (.int 0) then .null else jsIndex posts (index - 1)
  createPage
    { path := post.fields.slug
      component := postLayoutTemplate
      context := { slug := post.fields.slug, previous := previous, next := next } }
    log

/-- The hook with the corrected boundary test, otherwise as `createPages`. -/
def createPagesFixed (resolve : String → String) (result : QueryResult) : Run :=
  let postLayoutTemplate := resolve "src/templates/post-layout.js"
  if result.errors.truthy then
    { calls := [], outcome := .threw (.value result.errors) }
  else
    match result.data with
    | none => { calls := [], outcome := .threw .typeError }
    | some data =>
      let posts := data.allMdx.nodes
      { calls := forEach posts (postCallbackFixed postLayoutTemplate posts) []
        outcome := .completed }

/-- Reading of a call in which `null` and `undefined` are both "absent". -/
structure PagePlan where
  path : String
  component : String
  slug : String
  previous : Option Post
  next : Option Post
  deriving DecidableEq, Repr

/-- Forgets the difference between `null` and `undefined` in a call. -/
def CreatePageArgs.plan (c : CreatePageArgs) : PagePlan :=
  { path := c.path
    component := c.component
    slug := c.context.slug
    previous := c.context.previous.toOption
    next := c.context.next.toOption }

/-- The argument object of the `index`-th call once both comparisons of the
callback are evaluated; `postCallback_eq` relates it to the callback. -/
def pageArgs (postLayoutTemplate : String) (posts : List Post) (post : Post) (index : Nat) :
    CreatePageArgs :=
  { path := post.fields.slug
    component := postLayoutTemplate
    context :=
      { slug := post.fields.slug
        previous := jsIndex posts (index + 1)
        next := if index = 0 then .null else jsIndex posts (index - 1) } }

/-- Indexed map from a start index; the pure shadow of `forEachFrom`. -/
def mapFrom {α β : Type} (f : α → Nat → β) : List α → Nat → List β
  | [], _ => []
  | x :: xs, i => f x i :: mapFrom f xs (i + 1)

/-- The argument object of the `index`-th call of the corrected callback, with
the comparison against the collection length evaluated. -/
def pageArgsFixed (postLayoutTemplate : String) (posts : List Post) (post : Post) (index : Nat) :
    CreatePageArgs :=
  { path := post.fields.slug
    component := postLayoutTemplate
    context :=
      { slug := post.fields.slug
        previous := if index + 1 = posts.length then .null else jsIndex posts (index + 1)
        next := if index = 0 then .null else jsIndex posts (index - 1) } }

/-! ## Sample data -/

/-- A post with the given slug and title. -/
def samplePost (slug title : String) : Post :=
  { id := title
    excerpt := ""
    frontmatter := { title := title, date := "2020-01-01", category := "dev", author := "rh" }
    fields := { slug := slug } }

/-- Sample post A (the newest). -/
def postA : Post := samplePost "/a/" "A"

/-- Sample post B. -/
def postB : Post := samplePost "/b/" "B"

/-- Sample post C (the oldest). -/
def postC : Post := samplePost "/c/" "C"

/-- A successful query result carrying the given posts. -/
def okResult (posts : List Post) : QueryResult :=
  { errors := .undefined, data := some { allMdx := { nodes := posts } } }

/-- A stand-in for `path.resolve` in a checkout at `/repo`. -/
def sampleResolve (p : String) : String := "/repo/" ++ p

/-! ## `onCreateNode` -/

/-- The method `String.prototype.replace` with a string pattern, on the characters: only
the first occurrence of the pattern is replaced. -/
def replaceFirst (pat rep : List Char) : List Char → List Char
  | [] => if pat.isPrefixOf [] then rep else []
  | c :: cs =>
    if pat.isPrefixOf (c :: cs) then rep ++ (c :: cs).drop pat.length
    else c :: replaceFirst pat rep cs

/-- The call `s.replace(pat, rep)` for a string pattern and a replacement without `$`
patterns (the hook passes the empty string). -/
def jsReplace (s pat rep : String) : String :=
  ⟨replaceFirst pat.data rep.data s.data⟩

/-- The `internal` member of a node. -/
structure Internal where
  type : String
  deriving DecidableEq, Repr

/-- A graph node, as far as the hook reads it. -/
structure Node where
  internal : Internal
  fileAbsolutePath : String
  deriving DecidableEq, Repr

/-- The argument object of one `createNodeField` call. -/
structure CreateNodeFieldArgs where
  name : String
  node : Node
  value : String
  deriving DecidableEq, Repr

/-- The action `createNodeField`: records its argument. -/
def createNodeField (args : CreateNodeFieldArgs) (log : List CreateNodeFieldArgs) :
    List CreateNodeFieldArgs :=
  log ++ [args]

/-- The fixed front part of every edit link. -/
def editBase : String := "https://github.com/molebox/richardhaines.dev/edit/master"

/-- The hook `onCreateNode`. `createFilePath` is the path-to-slug utility of
`gatsby-source-filesystem` and `dirname` is `__dirname`, the directory that
holds `gatsby-node.js`. Returns the `createNodeField` calls issued, in order. -/
def onCreateNode (createFilePath : Node → String) (dirname : String) (node : Node) :
    List CreateNodeFieldArgs :=
  if node.internal.type = "Mdx" then
    let value := createFilePath node
    let log := createNodeField { name := "slug", node := node, value := value } []
    createNodeField
      { name := "editLink"
        node := node
        value := editBase ++ jsReplace node.fileAbsolutePath dirname "" }
      log
  else
    []

/-- A sample `Mdx` node below the checkout `/repo`. -/
def sampleNode : Node :=
  { internal := { type := "Mdx" }, fileAbsolutePath := "/repo/src/posts/foo.mdx" }

/-- A stand-in for `createFilePath` that always answers `/foo/`. -/
def sampleCreateFilePath (_node : Node) : String := "/foo/"

/-! ## Auxiliary lemmas -/

theorem length_mapFrom {α β : Type} (f : α → Nat → β) (xs : List α) (i : Nat) :
    (mapFrom f xs i).length = xs.length := by
  induction xs generalizing i with
  | nil => rfl
  | cons x xs ih => simp [mapFrom, ih]

theorem getElem?_mapFrom {α β : Type} (f : α → Nat → β) (xs : List α) (i k : Nat) :
    (mapFrom f xs i)[k]? = (xs[k]?).map (fun x => f x (i + k)) := by
  induction xs generalizing i k with
  | nil => simp [mapFrom]
  | cons x xs ih =>
    cases k with
    | zero => simp [mapFrom]
    | succ k =>
      simp only [mapFrom, List.getElem?_cons_succ, ih]
      congr 1
      funext y
      congr 1
      omega

theorem forEachFrom_log {α β : Type} (cb : α → Nat → List β → List β) (f : α → Nat → β)
    (hcb : ∀ x i s, cb x i s = s ++ [f x i]) (xs : List α) (i : Nat) (s : List β) :
    forEachFrom cb xs i s = s ++ mapFrom f xs i := by
  induction xs generalizing i s with
  | nil => simp [forEachFrom, mapFrom]
  | cons x xs ih => simp [forEachFrom, mapFrom, ih, hcb]

theorem strictEq_index_zero (index : Nat) :
    jsStrictEq (.int index) (.int 0) = decide (index = 0) := by
  rw [Bool.eq_iff_iff]
  simp [jsStrictEq]

theorem strictEq_post_length (post : Post) (index : Nat) :
    jsStrictEq (.int index) (jsMinus post.length (.num (.int 1))) = false := by
  simp [jsStrictEq, jsMinus, Post.length, JsPrim.toNumber]

theorem postCallback_eq (tpl : String) (posts : List Post) (post : Post) (index : Nat)
    (log : List CreatePageArgs) :
    postCallback tpl posts post index log = log ++ [pageArgs tpl posts post index] := by
  simp [postCallback, pageArgs, createPage, strictEq_index_zero, strictEq_post_length]

theorem createPages_calls (resolve : String → String) (result : QueryResult)
    (posts : List Post) (hErr : result.errors.truthy = false)
    (hData : result.data = some ⟨⟨posts⟩⟩) :
    createPages resolve result =
      { calls := mapFrom (pageArgs (resolve "src/templates/post-layout.js") posts) posts 0
        outcome := .completed } := by
  simp [createPages, hErr, hData, forEach,
    forEachFrom_log _ _ (postCallback_eq (resolve "src/templates/post-layout.js") posts)]

theorem createPages_getElem? (resolve : String → String) (result : QueryResult)
    (posts : List Post) (hErr : result.errors.truthy = false)
    (hData : result.data = some ⟨⟨posts⟩⟩) (k : Nat) :
    (createPages resolve result).calls[k]? =
      (posts[k]?).map (fun p => pageArgs (resolve "src/templates/post-layout.js") posts p k) := by
  rw [createPages_calls resolve result posts hErr hData]
  simp [getElem?_mapFrom]

theorem map_path_mapFrom (tpl : String) (posts xs : List Post) (i : Nat) :
    (mapFrom (pageArgs tpl posts) xs i).map (fun c => c.path) = xs.map (fun p => p.fields.slug) := by
  induction xs generalizing i with
  | nil => rfl
  | cons x xs ih => simp [mapFrom, pageArgs, ih]

theorem jsIndex_of_getElem? {α : Type} (xs : List α) (i : Nat) (v : α)
    (h : xs[i]? = some v) : jsIndex xs i = .obj v := by
  simp [jsIndex, h]

theorem jsIndex_of_length_le {α : Type} (xs : List α) (i : Nat) (h : xs.length ≤ i) :
    jsIndex xs i = .undefined := by
  simp [jsIndex, List.getElem?_eq_none h]

theorem jsIndex_eq_obj_iff {α : Type} (xs : List α) (i : Nat) (v : α) :
    jsIndex xs i = .obj v ↔ xs[i]? = some v := by
  unfold jsIndex
  cases h : xs[i]? with
  | none => simp
  | some w => simp

theorem jsIndex_isAbsent_iff {α : Type} (xs : List α) (i : Nat) :
    (jsIndex xs i).isAbsent = true ↔ xs.length ≤ i := by
  unfold jsIndex
  cases h : xs[i]? with
  | none =>
    simp only [JsRef.isAbsent, true_iff]
    exact List.getElem?_eq_none_iff.mp h
  | some w =>
    have hlt : i < xs.length := (List.getElem?_eq_some_iff.mp h).1
    simp only [JsRef.isAbsent]
    constructor
    · intro hf
      exact absurd hf (by decide)
    · intro hle
      omega

theorem call_of_getElem? (resolve : String → String) (result : QueryResult)
    (posts : List Post) (hErr : result.errors.truthy = false)
    (hData : result.data = some ⟨⟨posts⟩⟩) (k : Nat) (c : CreatePageArgs) (p : Post)
    (hc : (createPages resolve result).calls[k]? = some c) (hp : posts[k]? = some p) :
    c = pageArgs (resolve "src/templates/post-layout.js") posts p k := by
  rw [createPages_getElem? resolve result posts hErr hData, hp] at hc
  exact (Option.some.inj hc).symm

theorem strictEq_posts_length (posts : List Post) (index : Nat) :
    jsStrictEq (.int index) (jsMinus (.num (.int posts.length)) (.num (.int 1))) =
      decide (index + 1 = posts.length) := by
  rw [Bool.eq_iff_iff]
  simp only [jsStrictEq, jsMinus, JsPrim.toNumber, beq_iff_eq, decide_eq_true_eq]
  omega

theorem postCallbackFixed_eq (tpl : String) (posts : List Post) (post : Post) (index : Nat)
    (log : List CreatePageArgs) :
    postCallbackFixed tpl posts post index log = log ++ [pageArgsFixed tpl posts post index] := by
  simp [postCallbackFixed, pageArgsFixed, createPage, strictEq_index_zero,
    strictEq_posts_length]

theorem plan_pageArgs (tpl : String) (posts : List Post) (post : Post) (index : Nat) :
    (pageArgs tpl posts post index).plan = (pageArgsFixed tpl posts post index).plan := by
  by_cases h : index + 1 = posts.length
  · have hu : jsIndex posts posts.length = .undefined :=
      jsIndex_of_length_le posts posts.length (Nat.le_refl _)
    simp [CreatePageArgs.plan, pageArgs, pageArgsFixed, h, hu, JsRef.toOption]
  · simp [CreatePageArgs.plan, pageArgs, pageArgsFixed, h]

theorem map_plan_mapFrom (tpl : String) (posts xs : List Post) (i : Nat) :
    (mapFrom (pageArgs tpl posts) xs i).map CreatePageArgs.plan =
      (mapFrom (pageArgsFixed tpl posts) xs i).map CreatePageArgs.plan := by
  induction xs generalizing i with
  | nil => rfl
  | cons x xs ih => simp [mapFrom, plan_pageArgs, ih]

/-! ## Page creation: one call per post -/

/-- C1: when the result's `errors` member is missing and its posts list is
`posts`, `createPages` completes and issues exactly `posts.length` calls, the
`i`-th with path and context slug `posts[i].fields.slug` and with the resolved
post-layout template as component; an empty list gives no call. -/
theorem createPages_one_call_per_post (resolve : String → String) (result : QueryResult)
    (posts : List Post) (hErr : result.errors.truthy = false)
    (hData : result.data = some ⟨⟨posts⟩⟩) :
    (createPages resolve result).outcome = .completed ∧
    (createPages resolve result).calls.length = posts.length ∧
    (∀ (i : Nat) (p : Post), posts[i]? = some p →
      ∃ c : CreatePageArgs, (createPages resolve result).calls[i]? = some c ∧
        c.path = p.fields.slug ∧
        c.component = resolve "src/templates/post-layout.js" ∧
        c.context.slug = p.fields.slug) ∧
    (posts = [] → (createPages resolve result).calls = []) := by
  refine ⟨?_, ?_, ?_, ?_⟩
  · rw [createPages_calls resolve result posts hErr hData]
  · rw [createPages_calls resolve result posts hErr hData]
    exact length_mapFrom _ _ _
  · intro i p hp
    refine ⟨pageArgs (resolve "src/templates/post-layout.js") posts p i, ?_, rfl, rfl, rfl⟩
    rw [createPages_getElem? resolve result posts hErr hData, hp]
    rfl
  · intro hnil
    rw [createPages_calls resolve result posts hErr hData, hnil]
    rfl

/-- C1 at the posts A, B, C: three calls, the paths in input order. -/
theorem createPages_one_call_per_post_witness :
    (okResult [postA, postB, postC]).errors.truthy = false ∧
    (okResult [postA, postB, postC]).data = some ⟨⟨[postA, postB, postC]⟩⟩ ∧
    (createPages sampleResolve (okResult [postA, postB, postC])).outcome = .completed ∧
    (createPages sampleResolve (okResult [postA, postB, postC])).calls.length = 3 ∧
    (createPages sampleResolve (okResult [postA, postB, postC])).calls.map (fun c => c.path)
      = ["/a/", "/b/", "/c/"] :=
  ⟨rfl, rfl,
    (createPages_one_call_per_post sampleResolve (okResult [postA, postB, postC])
      [postA, postB, postC] rfl rfl).1,
    (createPages_one_call_per_post sampleResolve (okResult [postA, postB, postC])
      [postA, postB, postC] rfl rfl).2.1,
    by decide⟩

/-! ## Failing query -/

/-- C4: when the result's `errors` member is a non-empty array, `createPages`
throws exactly that value and issues no `createPage` call, whatever `data` holds. -/
theorem createPages_errors_abort (resolve : String → String) (result : QueryResult)
    (es : List String) (hErr : result.errors = .array es) (hne : es ≠ []) :
    createPages resolve result =
      { calls := [], outcome := .threw (.value (.array es)) } := by
  have _ := hne
  simp [createPages, hErr, JsErrors.truthy]

/-- C4 at a result that carries one error next to three posts. -/
theorem createPages_errors_abort_witness :
    ["boom"] ≠ ([] : List String) ∧
    createPages sampleResolve
        { errors := .array ["boom"], data := some ⟨⟨[postA, postB, postC]⟩⟩ } =
      { calls := [], outcome := .threw (.value (.array ["boom"])) } :=
  ⟨by decide, createPages_errors_abort sampleResolve _ ["boom"] rfl (by decide)⟩

/-- C10: a result whose `errors` member is the empty array makes `createPages`
throw that array and issue no call, even with posts present; the same holds for
every array; and a run that completes had `errors` undefined or null. -/
theorem createPages_empty_errors_throw (resolve : String → String) (result : QueryResult)
    (posts : List Post) (hErr : result.errors = .array [])
    (hData : result.data = some ⟨⟨posts⟩⟩) (hne : posts ≠ []) :
    createPages resolve result = { calls := [], outcome := .threw (.value (.array [])) } ∧
    (∀ (r : QueryResult) (es : List String), r.errors = .array es →
      createPages resolve r = { calls := [], outcome := .threw (.value (.array es)) }) ∧
    (∀ r : QueryResult, (createPages resolve r).outcome = .completed →
      r.errors = .undefined ∨ r.errors = .null) := by
  have _ := hData
  have _ := hne
  refine ⟨?_, ?_, ?_⟩
  · simp [createPages, hErr, JsErrors.truthy]
  · intro r es hr
    simp [createPages, hr, JsErrors.truthy]
  · intro r hr
    cases hE : r.errors with
    | undefined => exact Or.inl rfl
    | null => exact Or.inr rfl
    | array es => simp [createPages, hE, JsErrors.truthy] at hr

/-- C10 at a result with an empty `errors` array and three posts. -/
theorem createPages_empty_errors_throw_witness :
    [postA, postB, postC] ≠ [] ∧
    createPages sampleResolve
        { errors := .array [], data := some ⟨⟨[postA, postB, postC]⟩⟩ } =
      { calls := [], outcome := .threw (.value (.array [])) } :=
  ⟨by decide,
    (createPages_empty_errors_throw sampleResolve
      { errors := .array [], data := some ⟨⟨[postA, postB, postC]⟩⟩ }
      [postA, postB, postC] rfl rfl (by decide)).1⟩

/-! ## Distinct paths -/

/-- C5: when no two posts share a slug, no two `createPage` calls share a path. -/
theorem createPages_paths_nodup (resolve : String → String) (result : QueryResult)
    (posts : List Post) (hErr : result.errors.truthy = false)
    (hData : result.data = some ⟨⟨posts⟩⟩)
    (hU : (posts.map (fun p => p.fields.slug)).Nodup) :
    ((createPages resolve result).calls.map (fun c => c.path)).Nodup := by
  rw [createPages_calls resolve result posts hErr hData]
  show (List.map (fun c : CreatePageArgs => c.path) (mapFrom _ posts 0)).Nodup
  rw [map_path_mapFrom]
  exact hU

/-- C5 at the posts A, B, C, whose slugs differ. -/
theorem createPages_paths_nodup_witness :
    ([postA, postB, postC].map (fun p => p.fields.slug)).Nodup ∧
    ((createPages sampleResolve (okResult [postA, postB, postC])).calls.map
      (fun c => c.path)).Nodup :=
  ⟨by decide,
    createPages_paths_nodup sampleResolve (okResult [postA, postB, postC])
      [postA, postB, postC] rfl rfl (by decide)⟩

/-! ## Navigation context -/

/-- C2: in the `i`-th call, `next` is absent when `i = 0` and is `posts[i-1]`
otherwise; `previous` is absent when `i` is the last index and is `posts[i+1]`
otherwise. -/
theorem createPages_navigation (resolve : String → String) (result : QueryResult)
    (posts : List Post) (hErr : result.errors.truthy = false)
    (hData : result.data = some ⟨⟨posts⟩⟩) (i : Nat) (hi : i < posts.length) :
    ∃ c : CreatePageArgs, (createPages resolve result).calls[i]? = some c ∧
      (i = 0 → c.context.next.isAbsent = true) ∧
      (0 < i → ∃ q : Post, posts[i - 1]? = some q ∧ c.context.next = .obj q) ∧
      (i = posts.length - 1 → c.context.previous.isAbsent = true) ∧
      (i ≠ posts.length - 1 →
        ∃ q : Post, posts[i + 1]? = some q ∧ c.context.previous = .obj q) := by
  refine ⟨pageArgs (resolve "src/templates/post-layout.js") posts posts[i] i, ?_, ?_, ?_, ?_, ?_⟩
  · rw [createPages_getElem? resolve result posts hErr hData, List.getElem?_eq_getElem hi]
    rfl
  · intro h0
    simp [pageArgs, h0, JsRef.isAbsent]
  · intro hpos
    have hlt : i - 1 < posts.length := by omega
    refine ⟨posts[i - 1], List.getElem?_eq_getElem hlt, ?_⟩
    have hne : i ≠ 0 := by omega
    simp only [pageArgs, hne, if_false]
    exact jsIndex_of_getElem? _ _ _ (List.getElem?_eq_getElem hlt)
  · intro hlast
    show (jsIndex posts (i + 1)).isAbsent = true
    rw [jsIndex_isAbsent_iff]
    omega
  · intro hnl
    have hlt : i + 1 < posts.length := by omega
    exact ⟨posts[i + 1], List.getElem?_eq_getElem hlt,
      jsIndex_of_getElem? _ _ _ (List.getElem?_eq_getElem hlt)⟩

/-- C2 at the posts A, B, C: the middle call has previous C and next A, and the
three contexts are (previous B, next absent), (previous C, next A),
(previous absent, next B). -/
theorem createPages_navigation_witness :
    1 < [postA, postB, postC].length ∧
    (∃ c : CreatePageArgs,
      (createPages sampleResolve (okResult [postA, postB, postC])).calls[1]? = some c ∧
      (1 = 0 → c.context.next.isAbsent = true) ∧
      (0 < 1 → ∃ q : Post, [postA, postB, postC][1 - 1]? = some q ∧ c.context.next = .obj q) ∧
      (1 = [postA, postB, postC].length - 1 → c.context.previous.isAbsent = true) ∧
      (1 ≠ [postA, postB, postC].length - 1 →
        ∃ q : Post, [postA, postB, postC][1 + 1]? = some q ∧ c.context.previous = .obj q)) ∧
    (createPages sampleResolve (okResult [postA, postB, postC])).calls.map
        (fun c => (c.context.previous.toOption, c.context.next.toOption)) =
      [(some postB, none), (some postC, some postA), (none, some postB)] :=
  ⟨by decide,
    createPages_navigation sampleResolve (okResult [postA, postB, postC])
      [postA, postB, postC] rfl rfl 1 (by decide),
    by decide⟩

/-! ## Boundary calls -/

/-- C3, as stated, fails: with the two posts A, B the first call has
`previous = B` and the last call has `next = A`, neither absent. -/
theorem createPages_boundary_claim_fails :
    ¬ (∀ (resolve : String → String) (result : QueryResult) (posts : List Post),
        result.errors.truthy = false → result.data = some ⟨⟨posts⟩⟩ → posts ≠ [] →
        ∃ first last : CreatePageArgs,
          (createPages resolve result).calls[0]? = some first ∧
          (createPages resolve result).calls[posts.length - 1]? = some last ∧
          first.context.previous.isAbsent = true ∧
          last.context.next.isAbsent = true) := by
  intro h
  obtain ⟨first, last, hf, _, hp, _⟩ :=
    h sampleResolve (okResult [postA, postB]) [postA, postB] rfl rfl (by decide)
  have hcall : (createPages sampleResolve (okResult [postA, postB])).calls[0]? =
      some (pageArgs (sampleResolve "src/templates/post-layout.js") [postA, postB] postA 0) := by
    rw [createPages_getElem? sampleResolve (okResult [postA, postB]) [postA, postB] rfl rfl]
    rfl
  rw [hcall] at hf
  have hfirst := Option.some.inj hf
  rw [← hfirst] at hp
  exact absurd hp (by decide)

/-- C3, amended: for a non-empty posts list the first call's `next` and the
last call's `previous` are absent; the first call's `previous` (and the last
call's `next`) is absent exactly when the list has a single post. -/
theorem createPages_boundaries (resolve : String → String) (result : QueryResult)
    (posts : List Post) (hErr : result.errors.truthy = false)
    (hData : result.data = some ⟨⟨posts⟩⟩) (hne : posts ≠ []) :
    ∃ first last : CreatePageArgs,
      (createPages resolve result).calls[0]? = some first ∧
      (createPages resolve result).calls[posts.length - 1]? = some last ∧
      first.context.next.isAbsent = true ∧
      last.context.previous.isAbsent = true ∧
      (first.context.previous.isAbsent = true ↔ posts.length = 1) ∧
      (last.context.next.isAbsent = true ↔ posts.length = 1) := by
  have hpos : 0 < posts.length := List.length_pos.mpr hne
  have hlast : posts.length - 1 < posts.length := by omega
  refine ⟨pageArgs (resolve "src/templates/post-layout.js") posts posts[0] 0,
    pageArgs (resolve "src/templates/post-layout.js") posts posts[posts.length - 1]
      (posts.length - 1), ?_, ?_, ?_, ?_, ?_, ?_⟩
  · rw [createPages_getElem? resolve result posts hErr hData, List.getElem?_eq_getElem hpos]
    rfl
  · rw [createPages_getElem? resolve result posts hErr hData, List.getElem?_eq_getElem hlast]
    rfl
  · simp [pageArgs, JsRef.isAbsent]
  · show (jsIndex posts (posts.length - 1 + 1)).isAbsent = true
    rw [jsIndex_isAbsent_iff]
    omega
  · show (jsIndex posts (0 + 1)).isAbsent = true ↔ posts.length = 1
    rw [jsIndex_isAbsent_iff]
    omega
  · by_cases h1 : posts.length - 1 = 0
    · simp only [pageArgs, h1, if_true, JsRef.isAbsent, true_iff]
      omega
    · simp only [pageArgs, h1, if_false]
      rw [jsIndex_isAbsent_iff]
      omega

/-- C3, amended, at the posts A, B, C and at the single post A. -/
theorem createPages_boundaries_witness :
    [postA, postB, postC] ≠ [] ∧
    (∃ first last : CreatePageArgs,
      (createPages sampleResolve (okResult [postA, postB, postC])).calls[0]? = some first ∧
      (createPages sampleResolve (okResult [postA, postB, postC])).calls[
        [postA, postB, postC].length - 1]? = some last ∧
      first.context.next.isAbsent = true ∧
      last.context.previous.isAbsent = true ∧
      (first.context.previous.isAbsent = true ↔ [postA, postB, postC].length = 1) ∧
      (last.context.next.isAbsent = true ↔ [postA, postB, postC].length = 1)) ∧
    (createPages sampleResolve (okResult [postA])).calls.map
        (fun c => (c.context.previous.isAbsent, c.context.next.isAbsent)) = [(true, true)] :=
  ⟨by decide,
    createPages_boundaries sampleResolve (okResult [postA, postB, postC])
      [postA, postB, postC] rfl rfl (by decide),
    by decide⟩

/-! ## Consistency of the links -/

/-- C9: for adjacent indices `i`, `i+1` the `i`-th call's `previous` is
`posts[i+1]` and the `(i+1)`-th call's `next` is `posts[i]`; and with unique
slugs, call `j` has the post of call `i` as `next` exactly when call `i` has the
post of call `j` as `previous`. -/
theorem createPages_links_consistent (resolve : String → String) (result : QueryResult)
    (posts : List Post) (hErr : result.errors.truthy = false)
    (hData : result.data = some ⟨⟨posts⟩⟩) :
    (∀ i : Nat, i + 1 < posts.length →
      ∃ (c d : CreatePageArgs) (p q : Post),
        (createPages resolve result).calls[i]? = some c ∧
        (createPages resolve result).calls[i + 1]? = some d ∧
        posts[i]? = some p ∧ posts[i + 1]? = some q ∧
        c.context.previous = .obj q ∧ d.context.next = .obj p) ∧
    ((posts.map (fun p => p.fields.slug)).Nodup →
      ∀ (i j : Nat) (c d : CreatePageArgs) (p q : Post),
        (createPages resolve result).calls[i]? = some c →
        (createPages resolve result).calls[j]? = some d →
        posts[i]? = some p → posts[j]? = some q →
        (d.context.next = .obj p ↔ c.context.previous = .obj q)) := by
  constructor
  · intro i hi
    have hi0 : i < posts.length := by omega
    refine ⟨pageArgs (resolve "src/templates/post-layout.js") posts posts[i] i,
      pageArgs (resolve "src/templates/post-layout.js") posts posts[i + 1] (i + 1),
      posts[i], posts[i + 1], ?_, ?_, List.getElem?_eq_getElem hi0,
      List.getElem?_eq_getElem hi, ?_, ?_⟩
    · rw [createPages_getElem? resolve result posts hErr hData, List.getElem?_eq_getElem hi0]
      rfl
    · rw [createPages_getElem? resolve result posts hErr hData, List.getElem?_eq_getElem hi]
      rfl
    · exact jsIndex_of_getElem? _ _ _ (List.getElem?_eq_getElem hi)
    · have hne : i + 1 ≠ 0 := by omega
      simp only [pageArgs, hne, if_false, Nat.add_sub_cancel]
      exact jsIndex_of_getElem? _ _ _ (List.getElem?_eq_getElem hi0)
  · intro hU i j c d p q hc hd hp hq
    have hND : posts.Nodup := List.Nodup.of_map _ hU
    have hi : i < posts.length := (List.getElem?_eq_some_iff.mp hp).1
    have hj : j < posts.length := (List.getElem?_eq_some_iff.mp hq).1
    rw [call_of_getElem? resolve result posts hErr hData i c p hc hp,
      call_of_getElem? resolve result posts hErr hData j d q hd hq]
    show (if j = 0 then JsRef.null else jsIndex posts (j - 1)) = .obj p ↔
      jsIndex posts (i + 1) = .obj q
    constructor
    · intro hn
      by_cases hj0 : j = 0
      · simp [hj0] at hn
      · simp only [hj0, if_false] at hn
        rw [jsIndex_eq_obj_iff] at hn
        have hidx : i = j - 1 := List.getElem?_inj hi hND (hp.trans hn.symm)
        have hij : i + 1 = j := by omega
        rw [jsIndex_eq_obj_iff, hij]
        exact hq
    · intro hpv
      rw [jsIndex_eq_obj_iff] at hpv
      have hidx : j = i + 1 := List.getElem?_inj hj hND (hq.trans hpv.symm)
      have hj0 : j ≠ 0 := by omega
      simp only [hj0, if_false]
      rw [jsIndex_eq_obj_iff]
      have hji : j - 1 = i := by omega
      rw [hji]
      exact hp

/-- C9 at the posts A, B, C: call 0 has B as `previous` and call 1 has A as `next`. -/
theorem createPages_links_consistent_witness :
    (okResult [postA, postB, postC]).errors.truthy = false ∧
    (∃ (c d : CreatePageArgs) (p q : Post),
      (createPages sampleResolve (okResult [postA, postB, postC])).calls[0]? = some c ∧
      (createPages sampleResolve (okResult [postA, postB, postC])).calls[0 + 1]? = some d ∧
      [postA, postB, postC][0]? = some p ∧ [postA, postB, postC][0 + 1]? = some q ∧
      c.context.previous = .obj q ∧ d.context.next = .obj p) :=
  ⟨rfl,
    (createPages_links_consistent sampleResolve (okResult [postA, postB, postC])
      [postA, postB, postC] rfl rfl).1 0 (by decide)⟩

/-! ## The boundary comparison as written -/

/-- C8: the comparison `index === post.length - 1` is false for every post and
index, so the callback always takes `posts[index + 1]` as `previous`; and the
run of `createPages` ends like, and issues the same calls as, the run with the
comparison `index === posts.length - 1`, once `null` and `undefined` are both
read as absent. The calls themselves differ: at the single post A the last
`previous` is `undefined` as written and `null` when corrected. -/
theorem createPages_refines_fixed :
    (∀ (post : Post) (index : Nat),
      jsStrictEq (.int index) (jsMinus post.length (.num (.int 1))) = false) ∧
    (∀ (tpl : String) (posts : List Post) (post : Post) (index : Nat)
        (log : List CreatePageArgs),
      ∃ c : CreatePageArgs, postCallback tpl posts post index log = log ++ [c] ∧
        c.context.previous = jsIndex posts (index + 1)) ∧
    (∀ (resolve : String → String) (result : QueryResult),
      (createPages resolve result).outcome = (createPagesFixed resolve result).outcome ∧
      (createPages resolve result).calls.map CreatePageArgs.plan =
        (createPagesFixed resolve result).calls.map CreatePageArgs.plan) ∧
    createPages sampleResolve (okResult [postA]) ≠
      createPagesFixed sampleResolve (okResult [postA]) := by
  refine ⟨strictEq_post_length, ?_, ?_, by decide⟩
  · intro tpl posts post index log
    exact ⟨pageArgs tpl posts post index, postCallback_eq tpl posts post index log, rfl⟩
  · intro resolve result
    unfold createPages createPagesFixed
    cases hE : result.errors.truthy with
    | true => simp
    | false =>
      cases hD : result.data with
      | none => simp
      | some data =>
        simp only [Bool.false_eq_true, if_false, true_and, forEach]
        rw [forEachFrom_log _ _ (postCallback_eq _ data.allMdx.nodes),
          forEachFrom_log _ _ (postCallbackFixed_eq _ data.allMdx.nodes)]
        simp only [List.nil_append]
        exact map_plan_mapFrom _ _ _ _

/-! ## Node decoration -/

theorem replaceFirst_append (pat rep rest : List Char) :
    replaceFirst pat rep (pat ++ rest) = rep ++ rest := by
  have hpre : pat.isPrefixOf (pat ++ rest) = true :=
    List.isPrefixOf_iff_prefix.mpr (List.prefix_append pat rest)
  generalize hs : pat ++ rest = s at hpre
  cases s with
  | nil =>
    have hrest : rest = [] := (List.append_eq_nil.mp hs).2
    simp [replaceFirst, hpre, hrest]
  | cons c cs =>
    simp only [replaceFirst, hpre, if_true]
    rw [← hs, List.drop_left]

theorem jsReplace_leading (root rest rep : String) :
    jsReplace (root ++ rest) root rep = rep ++ rest := by
  unfold jsReplace
  rw [String.data_append, replaceFirst_append]
  rfl

/-- C6: for an `Mdx` node whose `fileAbsolutePath` is the build-root directory
followed by `rest`, the one `editLink` call of `onCreateNode` carries
`https://github.com/molebox/richardhaines.dev/edit/master` followed by `rest`. -/
theorem onCreateNode_editLink (createFilePath : Node → String) (dirname : String)
    (node : Node) (rest : String) (hType : node.internal.type = "Mdx")
    (hPath : node.fileAbsolutePath = dirname ++ rest) :
    (onCreateNode createFilePath dirname node).filter (fun c => decide (c.name = "editLink")) =
      [{ name := "editLink"
         node := node
         value := "https://github.com/molebox/richardhaines.dev/edit/master" ++ rest }] := by
  simp [onCreateNode, createNodeField, hType, hPath, jsReplace_leading, editBase]

/-- C6 at `/repo/src/posts/foo.mdx` with build root `/repo`. -/
theorem onCreateNode_editLink_witness :
    sampleNode.internal.type = "Mdx" ∧
    sampleNode.fileAbsolutePath = "/repo" ++ "/src/posts/foo.mdx" ∧
    (onCreateNode sampleCreateFilePath "/repo" sampleNode).filter
        (fun c => decide (c.name = "editLink")) =
      [{ name := "editLink"
         node := sampleNode
         value := "https://github.com/molebox/richardhaines.dev/edit/master" ++
           "/src/posts/foo.mdx" }] ∧
    (onCreateNode sampleCreateFilePath "/repo" sampleNode).map (fun c => (c.name, c.value)) =
      [("slug", "/foo/"),
       ("editLink",
        "https://github.com/molebox/richardhaines.dev/edit/master/src/posts/foo.mdx")] :=
  ⟨by decide, by decide,
    onCreateNode_editLink sampleCreateFilePath "/repo" sampleNode "/src/posts/foo.mdx"
      (by decide) (by decide),
    by decide⟩

/-- C7: a node whose type is not `Mdx` gets no `createNodeField` call; an `Mdx`
node gets exactly two, both on that node: first `slug`, carrying the result of
`createFilePath`, then `editLink`. -/
theorem onCreateNode_calls (createFilePath : Node → String) (dirname : String) (node : Node) :
    (node.internal.type ≠ "Mdx" → onCreateNode createFilePath dirname node = []) ∧
    (node.internal.type = "Mdx" →
      ∃ link : String, onCreateNode createFilePath dirname node =
        [{ name := "slug", node := node, value := createFilePath node },
         { name := "editLink", node := node, value := link }]) ∧
    ((onCreateNode createFilePath dirname node ≠ []) → node.internal.type = "Mdx") := by
  refine ⟨?_, ?_, ?_⟩
  · intro h
    simp [onCreateNode, h]
  · intro h
    exact ⟨editBase ++ jsReplace node.fileAbsolutePath dirname "", by
      simp [onCreateNode, createNodeField, h]⟩
  · intro h
    by_contra hne
    exact h (by simp [onCreateNode, hne])

end GatsbyNode
